import Mathlib

set_option maxRecDepth 100000

/-!
# Verification of the tstyche reporters

Shallow embedding of `src/lib/tstyche-base-reporter.js`,
`src/lib/tstyche-dot-reporter.js`, `src/lib/tstyche-mocha-reporter.js` and
`src/lib/utils.js`.

Console output is modelled as a trace of emitted items (`console.log` emits a
full line, `process.stdout.write` emits a raw character, `console.error` emits
a line on the error stream).  The external rendering primitive
(`markdown-or-chalk`) is modelled from its boundary contract in the spec.
-/

/-- The `text` field of a diagnostic: a single string or an array of lines,
distinguished by the `Array.isArray(diagnostic.text)` check of
`_formatDiagnostic`. -/
inductive DiagnosticText where
  | str (s : String)
  | arr (lines : List String)

mutual

/-- A TSTyche/TypeScript diagnostic record, as read by `_formatDiagnostic`:
`{ text, code?, category?, related? }`.  `related` is a list of nested
diagnostics; an absent (`undefined`) related field is embedded as the empty
list, which the formatter treats identically
(`diagnostic.related && diagnostic.related.length > 0`). -/
inductive Diagnostic where
  | mk (text : DiagnosticText) (code : Option String) (category : Option String)
      (related : DiagnosticList)

/-- A list of related diagnostics, mutual with `Diagnostic` so that the
formatter can recurse structurally. -/
inductive DiagnosticList where
  | nil
  | cons (head : Diagnostic) (tail : DiagnosticList)

end

/-- The `category` field of a diagnostic. -/
def Diagnostic.category : Diagnostic → Option String
  | .mk _ _ cat _ => cat

/-- The `related` field of a diagnostic. -/
def Diagnostic.related : Diagnostic → DiagnosticList
  | .mk _ _ _ r => r

/-- JS `Array.prototype.map` with the element index, as used by
`_formatDiagnostic` to attach the code suffix to the first line only. -/
def mapWithIndex (f : Nat → String → String) : Nat → List String → List String
  | _, [] => []
  | i, l :: ls => f i l :: mapWithIndex f (i + 1) ls

mutual

/-- Mirrors `_formatDiagnostic` of `src/lib/tstyche-base-reporter.js`:
normalise `text` to lines, append the `" (code)"` suffix to the first line
(JS truthiness: an absent or empty code appends nothing), join with newlines,
append the `" [category]"` suffix, then append the recursively formatted
related diagnostics, each indented by two spaces, on following lines. -/
def formatDiagnostic : Diagnostic → String
  | .mk text code category related =>
    let textLines := match text with
      | .str s => [s]
      | .arr ls => ls
    let codeSuffix := match code with
      | some c => if c = "" then "" else " (" ++ c ++ ")"
      | none => ""
    let categorySuffix := match category with
      | some c => if c = "" then "" else " [" ++ c ++ "]"
      | none => ""
    let lines := mapWithIndex
      (fun index line => line ++ (if index = 0 then codeSuffix else "")) 0 textLines
    let output := String.intercalate "\n" lines ++ categorySuffix
    match related with
    | .cons h t =>
        output ++ "\n" ++ String.intercalate "\n" (formatRelatedLines (.cons h t))
    | .nil => output

/-- The `diagnostic.related.map((related) => '  ' + this._formatDiagnostic(related))`
part of `_formatDiagnostic`. -/
def formatRelatedLines : DiagnosticList → List String
  | .nil => []
  | .cons d ds => ("  " ++ formatDiagnostic d) :: formatRelatedLines ds

end

/-! ## The external rendering primitive (`markdown-or-chalk`) -/

/-- The optional colorizer of the rendering primitive (`format.chalk`). -/
structure Chalk where
  gray : String → String
  red : String → String

/-- The dual-mode rendering primitive (`this.format`), at its boundary:
`header(text, level)`, `indent(text, depth)`, `logSymbols.success`,
`logSymbols.error`, and an optional colorizer that is absent in
markdown mode. -/
structure Format where
  header : String → Nat → String
  indent : String → Nat → String
  logSymbolsSuccess : String
  logSymbolsError : String
  chalk : Option Chalk

/-- Modelled from the spec: the `markdown-or-chalk` package is an external
collaborator, not part of this repository.  Per the spec, markdown mode uses
markdown headings, emoji log symbols, no leading whitespace and no colorizer;
CLI mode uses unicode symbols, whitespace indentation and a colorizer with
`gray` and `red`.  The exact strings are unconstrained by the claims. -/
def Format.ofMode (markdown : Bool) : Format :=
  if markdown then
    { header := fun text level => String.mk (List.replicate level '#') ++ " " ++ text
      indent := fun text _ => text
      logSymbolsSuccess := ":white_check_mark:"
      logSymbolsError := ":stop_sign:"
      chalk := none }
  else
    { header := fun text _ => text
      indent := fun text depth => String.mk (List.replicate (2 * depth) ' ') ++ text
      logSymbolsSuccess := "✔"
      logSymbolsError := "✖"
      chalk := some { gray := fun s => "<gray>" ++ s ++ "</gray>"
                      red := fun s => "<red>" ++ s ++ "</red>" } }

/-! ## Base reporter: version state, header, error printing -/

/-- The two compiler-version fields of `TstycheBaseReporter`
(`currentCompilerVersion`, `lastShownCompilerVersion`), both `undefined`
after construction and after `_onRunStart`. -/
structure VersionState where
  currentCompilerVersion : Option String
  lastShownCompilerVersion : Option String
deriving DecidableEq

/-- JS template-literal interpolation of a possibly-`undefined` string. -/
def jsInterpolate : Option String → String
  | none => "undefined"
  | some s => s

/-- The header string built by `_printCompilerVersion`. -/
def compilerVersionHeader (fmt : Format) (v : Option String) : String :=
  fmt.header ("uses TypeScript " ++ jsInterpolate v ++ " with ./tsconfig.json") 1

/-- Mirrors `_onRunStart` of the base reporter: both version fields are set
to `undefined`. -/
def baseRunStart (_st : VersionState) : VersionState :=
  { currentCompilerVersion := none, lastShownCompilerVersion := none }

/-- Mirrors `_onProjectUses` of the base reporter (with the default no-op
`_beforePrintCompilerVersion` hook): set `currentCompilerVersion`; if it
differs from `lastShownCompilerVersion`, print the header line and record it
as last shown.  Returns the new state and the printed header lines. -/
def baseProjectUses (fmt : Format) (st : VersionState) (v : String) :
    VersionState × List String :=
  let st1 : VersionState := { st with currentCompilerVersion := some v }
  if st1.currentCompilerVersion ≠ st1.lastShownCompilerVersion then
    ({ st1 with lastShownCompilerVersion := st1.currentCompilerVersion },
     [compilerVersionHeader fmt st1.currentCompilerVersion])
  else
    (st1, [])

/-- Delivers a list of `project:uses` compiler versions in order, collecting
all printed header lines. -/
def runProjectUses (fmt : Format) (st : VersionState) :
    List String → VersionState × List String
  | [] => (st, [])
  | v :: vs =>
    let r1 := baseProjectUses fmt st v
    let r2 := runProjectUses fmt r1.1 vs
    (r2.1, r1.2 ++ r2.2)

/-- The error line printed by `_printErrors` for one diagnostic:
`"Error: " + message`, wrapped in `chalk.red` when a colorizer is present. -/
def errorLineText (fmt : Format) (d : Diagnostic) : String :=
  let errorLine := "Error: " ++ formatDiagnostic d
  match fmt.chalk with
  | some ch => ch.red errorLine
  | none => errorLine

/-! ## Events -/

/-- The nested `payload.result.describe` object. -/
structure DescribeInfo where
  name : Option String := none

/-- The nested `payload.result.test` object. -/
structure TestInfo where
  name : Option String := none

/-- The `payload.result` object of describe/test events. -/
structure ResultInfo where
  describe : Option DescribeInfo := none
  test : Option TestInfo := none

/-- A reporter event payload.  One record covers the payload shapes the
handlers read: `compilerVersion` (for `project:uses`), `result` (for
describe/test events) and `diagnostics` (for error events). -/
structure Payload where
  compilerVersion : String := ""
  result : Option ResultInfo := none
  diagnostics : List Diagnostic := []

/-- A reporter event tuple `[kind, payload]`; the kind is an arbitrary
string, as in the source, so that dispatching an unknown kind is
representable. -/
abbrev Event := String × Payload

/-- The error-category kinds (`TstycheErrorEvents`). -/
def errorKinds : List String :=
  ["store:error", "project:error", "file:error", "directive:error", "collect:error",
   "test:error", "expect:error", "suppressed:error", "watch:error"]

/-- The lifecycle kinds routed to dedicated handlers by `on`. -/
def lifecycleKinds : List String :=
  ["run:start", "project:uses", "file:start", "describe:start", "describe:end",
   "test:pass", "test:fail", "run:end"]

/-- The not-yet-implemented kinds (`TstycheNonImplementedEvents`), routed to
the no-op `_onNonImplementedEvent`. -/
def nonImplementedKinds : List String :=
  ["store:adds", "target:start", "target:end", "file:end", "collect:start",
   "collect:node", "collect:end", "test:start", "test:skip", "test:fixme",
   "test:todo", "expect:start", "expect:fail", "expect:pass", "expect:skip",
   "expect:fixme", "suppressed:match", "suppressed:ignore"]

/-- The closed enumeration of known event kinds: every case of the `switch`
in `on` other than the `default`. -/
def knownEventKinds : List String :=
  errorKinds ++ lifecycleKinds ++ nonImplementedKinds

/-! ## Dot reporter (`src/lib/tstyche-dot-reporter.js`) -/

/-- The state of `TstycheDotReporter`: the inherited version fields plus
`dotsOnCurrentLine`. -/
structure DotState where
  version : VersionState
  dotsOnCurrentLine : Nat
deriving DecidableEq

/-- One item of dot-reporter console output: a raw mark character written by
`process.stdout.write`, a line terminator from `console.log('')`, a header
line from `console.log(header)`, or an error line from `console.error`. -/
inductive DotOut where
  | mark (c : Char)
  | newline
  | headerLine (s : String)
  | errorLine (s : String)
deriving DecidableEq

/-- The freshly constructed dot reporter: version fields `undefined`,
`dotsOnCurrentLine = 0`. -/
def initialDotState : DotState :=
  { version := { currentCompilerVersion := none, lastShownCompilerVersion := none }
    dotsOnCurrentLine := 0 }

/-- Mirrors `#writeDotChar`: write the character, increment the count, and if
the count reaches 80, emit a line terminator and reset the count. -/
def writeDotChar (st : DotState) (c : Char) : DotState × List DotOut :=
  let st1 : DotState := { st with dotsOnCurrentLine := st.dotsOnCurrentLine + 1 }
  if st1.dotsOnCurrentLine ≥ 80 then
    ({ st1 with dotsOnCurrentLine := 0 }, [DotOut.mark c, DotOut.newline])
  else
    (st1, [DotOut.mark c])

/-- Mirrors `#flushDots`: if any dots are pending, terminate the line and
reset the count; otherwise do nothing. -/
def flushDots (st : DotState) : DotState × List DotOut :=
  if st.dotsOnCurrentLine > 0 then
    ({ st with dotsOnCurrentLine := 0 }, [DotOut.newline])
  else
    (st, [])

/-- Mirrors the dot reporter's `_onRunStart`: `super._onRunStart` resets the
version fields, then the dot count is reset. -/
def dotOnRunStart (st : DotState) : DotState :=
  { version := baseRunStart st.version, dotsOnCurrentLine := 0 }

/-- Mirrors `_onProjectUses` as inherited by the dot reporter, whose
`_beforePrintCompilerVersion` override flushes the dots before the header is
printed. -/
def dotOnProjectUses (fmt : Format) (st : DotState) (v : String) :
    DotState × List DotOut :=
  let st1 : DotState := { st with version := { st.version with currentCompilerVersion := some v } }
  if st1.version.currentCompilerVersion ≠ st1.version.lastShownCompilerVersion then
    let f := flushDots st1
    let header := compilerVersionHeader fmt st1.version.currentCompilerVersion
    ({ f.1 with version := { f.1.version with
        lastShownCompilerVersion := st1.version.currentCompilerVersion } },
     f.2 ++ [DotOut.headerLine header])
  else
    (st1, [])

/-- Mirrors the dot reporter's `_onError`: flush the dots, then
`super._onError` prints one error line per diagnostic. -/
def dotOnError (fmt : Format) (st : DotState) (p : Payload) : DotState × List DotOut :=
  let f := flushDots st
  (f.1, f.2 ++ p.diagnostics.map (fun d => DotOut.errorLine (errorLineText fmt d)))

/-- Mirrors the dot reporter's `_onRunEnd`: flush the dots, then print two
blank lines. -/
def dotOnRunEnd (st : DotState) : DotState × List DotOut :=
  let f := flushDots st
  (f.1, f.2 ++ [DotOut.newline, DotOut.newline])

/-- Mirrors the `on` dispatcher of the base reporter, with the dot reporter's
handler overrides: every case of the `switch` in order, with the `default`
branch calling `assertTypeIsNever`, which throws
`Error('Expected value to not exist')`. -/
def dotStep (fmt : Format) (st : DotState) : Event → Except String (DotState × List DotOut)
  | (k, p) =>
    match k with
    | "store:error" | "project:error" | "file:error" | "directive:error" | "collect:error"
    | "test:error" | "expect:error" | "suppressed:error" | "watch:error" =>
      .ok (dotOnError fmt st p)
    | "run:start" => .ok (dotOnRunStart st, [])
    | "project:uses" => .ok (dotOnProjectUses fmt st p.compilerVersion)
    | "file:start" => .ok (st, [])
    | "describe:start" => .ok (st, [])
    | "describe:end" => .ok (st, [])
    | "test:pass" => .ok (writeDotChar st '.')
    | "test:fail" => .ok (writeDotChar st 'F')
    | "run:end" => .ok (dotOnRunEnd st)
    | "store:adds" | "target:start" | "target:end" | "file:end" | "collect:start"
    | "collect:node" | "collect:end" | "test:start" | "test:skip" | "test:fixme"
    | "test:todo" | "expect:start" | "expect:fail" | "expect:pass" | "expect:skip"
    | "expect:fixme" | "suppressed:match" | "suppressed:ignore" =>
      .ok (st, [])
    | _ => .error "Expected value to not exist"

/-- Delivers a list of events to the dot reporter in order, collecting the
output trace; a thrown dispatch halts processing. -/
def dotRunFrom (fmt : Format) (st : DotState) : List Event → DotState × List DotOut
  | [] => (st, [])
  | ev :: rest =>
    match dotStep fmt st ev with
    | .ok (st2, out) =>
      let r := dotRunFrom fmt st2 rest
      (r.1, out ++ r.2)
    | .error _ => (st, [])

/-- A whole dot-reporter run from the freshly constructed reporter. -/
def dotRun (fmt : Format) (evs : List Event) : DotState × List DotOut :=
  dotRunFrom fmt initialDotState evs

/-- Renders one output item as the text it contributes to the console
(`console.log` terminates its line). -/
def renderDotOut : DotOut → String
  | .mark c => String.singleton c
  | .newline => "\n"
  | .headerLine s => s ++ "\n"
  | .errorLine s => s ++ "\n"

/-- Renders a whole output trace as console text. -/
def renderTrace (l : List DotOut) : String :=
  String.join (l.map renderDotOut)

/-- The mark characters of an output trace, in order. -/
def marksOf (l : List DotOut) : List Char :=
  l.filterMap fun o =>
    match o with
    | .mark c => some c
    | _ => none

/-- The on-screen column reached after one output item, starting from
`col`: a mark advances the column, a terminated line resets it, and an error
line (on the error stream) leaves the standard-output column unchanged. -/
def colStep (col : Nat) : DotOut → Nat
  | .mark _ => col + 1
  | .newline => 0
  | .headerLine _ => 0
  | .errorLine _ => col

/-- Checks that every out-of-band item (a header line or an error line) of a
trace is emitted while the column is 0, starting from column `col`. -/
def oobAtLineStart : Nat → List DotOut → Bool
  | _, [] => true
  | col, o :: rest =>
    (match o with
     | .headerLine _ => col == 0
     | .errorLine _ => col == 0
     | _ => true) && oobAtLineStart (colStep col o) rest

/-! ## Mocha reporter (`src/lib/tstyche-mocha-reporter.js`) -/

/-- A describe-stack entry (`@typedef Describe`). -/
structure DescribeEntry where
  name : String
deriving DecidableEq

/-- The state of `TstycheMochaReporter`: inherited version fields plus the
describe stack. -/
structure MochaState where
  version : VersionState
  currentDescribeStack : List DescribeEntry
deriving DecidableEq

/-- One item of mocha-reporter console output.  A test line additionally
records the indentation level that was passed to `#printTest`. -/
inductive MochaOut where
  | logLine (s : String)
  | testLine (s : String) (indent : Nat)
  | errorLine (s : String)
deriving DecidableEq

/-- The freshly constructed mocha reporter. -/
def initialMochaState : MochaState :=
  { version := { currentCompilerVersion := none, lastShownCompilerVersion := none }
    currentDescribeStack := [] }

/-- Reads `(payload.result || {}).describe ?? {}` then `.name ?? 'describe'`. -/
def describeNameOf (p : Payload) : String :=
  match p.result with
  | some r =>
    match r.describe with
    | some d => d.name.getD "describe"
    | none => "describe"
  | none => "describe"

/-- Reads `(payload.result || {}).test ?? {}` then `.name ?? 'test'`. -/
def testNameOf (p : Payload) : String :=
  match p.result with
  | some r =>
    match r.test with
    | some t => t.name.getD "test"
    | none => "test"
  | none => "test"

/-- Mirrors `#printTest`: pick the mark, colorize when a colorizer is
present, and indent only in colorized mode with positive depth. -/
def printTest (fmt : Format) (description : String) (passed : Bool) (indent : Nat) :
    String :=
  let mark := if passed then fmt.logSymbolsSuccess else fmt.logSymbolsError
  let line1 := mark ++ " " ++ description
  let line2 := match fmt.chalk with
    | some ch => if passed then ch.gray line1 else ch.red line1
    | none => line1
  if fmt.chalk.isSome ∧ indent > 0 then fmt.indent line2 indent else line2

/-- Mirrors `#printDescribeStart`: top-level scopes use heading size 2,
nested ones size 3. -/
def printDescribeStart (fmt : Format) (d : DescribeEntry) (level : Nat) : String :=
  fmt.header d.name (if level = 0 then 2 else 3)

/-- Mirrors `_onDescribeStart`: push the scope, then stream its heading at
the new depth minus one. -/
def mochaOnDescribeStart (fmt : Format) (st : MochaState) (p : Payload) :
    MochaState × List MochaOut :=
  let describe : DescribeEntry := { name := describeNameOf p }
  let stack := st.currentDescribeStack ++ [describe]
  let indent := stack.length - 1
  ({ st with currentDescribeStack := stack },
   [MochaOut.logLine (printDescribeStart fmt describe indent)])

/-- Mirrors `_onDescribeEnd`: pop the top entry. -/
def mochaOnDescribeEnd (st : MochaState) : MochaState :=
  { st with currentDescribeStack := st.currentDescribeStack.dropLast }

/-- Mirrors `#recordTest`: the indentation passed to `#printTest` is the
current describe-stack depth. -/
def mochaRecordTest (fmt : Format) (st : MochaState) (p : Payload) (passed : Bool) :
    List MochaOut :=
  let description := testNameOf p
  let indent := st.currentDescribeStack.length
  [MochaOut.testLine (printTest fmt description passed indent) indent]

/-- Mirrors the mocha reporter's `_onError`: a fresh line, then one error
line per diagnostic. -/
def mochaOnError (fmt : Format) (p : Payload) : List MochaOut :=
  MochaOut.logLine "" :: p.diagnostics.map (fun d => MochaOut.errorLine (errorLineText fmt d))

/-- Mirrors `_onProjectUses` as inherited by the mocha reporter (default
no-op `_beforePrintCompilerVersion` hook). -/
def mochaOnProjectUses (fmt : Format) (st : MochaState) (v : String) :
    MochaState × List MochaOut :=
  let st1 : MochaState := { st with version := { st.version with currentCompilerVersion := some v } }
  if st1.version.currentCompilerVersion ≠ st1.version.lastShownCompilerVersion then
    ({ st1 with version := { st1.version with
        lastShownCompilerVersion := st1.version.currentCompilerVersion } },
     [MochaOut.logLine (compilerVersionHeader fmt st1.version.currentCompilerVersion)])
  else
    (st1, [])

/-- Mirrors the `on` dispatcher with the mocha reporter's handler
overrides. -/
def mochaStep (fmt : Format) (st : MochaState) :
    Event → Except String (MochaState × List MochaOut)
  | (k, p) =>
    match k with
    | "store:error" | "project:error" | "file:error" | "directive:error" | "collect:error"
    | "test:error" | "expect:error" | "suppressed:error" | "watch:error" =>
      .ok (st, mochaOnError fmt p)
    | "run:start" =>
      .ok ({ version := baseRunStart st.version, currentDescribeStack := [] }, [])
    | "project:uses" => .ok (mochaOnProjectUses fmt st p.compilerVersion)
    | "file:start" => .ok ({ st with currentDescribeStack := [] }, [])
    | "describe:start" => .ok (mochaOnDescribeStart fmt st p)
    | "describe:end" => .ok (mochaOnDescribeEnd st, [])
    | "test:pass" => .ok (st, mochaRecordTest fmt st p true)
    | "test:fail" => .ok (st, mochaRecordTest fmt st p false)
    | "run:end" => .ok (st, [MochaOut.logLine ""])
    | "store:adds" | "target:start" | "target:end" | "file:end" | "collect:start"
    | "collect:node" | "collect:end" | "test:start" | "test:skip" | "test:fixme"
    | "test:todo" | "expect:start" | "expect:fail" | "expect:pass" | "expect:skip"
    | "expect:fixme" | "suppressed:match" | "suppressed:ignore" =>
      .ok (st, [])
    | _ => .error "Expected value to not exist"

/-- Delivers a list of events to the mocha reporter in order. -/
def mochaRunFrom (fmt : Format) (st : MochaState) : List Event → MochaState × List MochaOut
  | [] => (st, [])
  | ev :: rest =>
    match mochaStep fmt st ev with
    | .ok (st2, out) =>
      let r := mochaRunFrom fmt st2 rest
      (r.1, out ++ r.2)
    | .error _ => (st, [])

/-- A whole mocha-reporter run from the freshly constructed reporter. -/
def mochaRun (fmt : Format) (evs : List Event) : MochaState × List MochaOut :=
  mochaRunFrom fmt initialMochaState evs

/-- The indentation levels of the test lines of a trace, in order. -/
def testIndents (l : List MochaOut) : List Nat :=
  l.filterMap fun o =>
    match o with
    | .testLine _ i => some i
    | _ => none

/-- Writes a list of mark characters to the dot buffer in order, collecting
the emitted output. -/
def writeMarks (st : DotState) : List Char → DotState × List DotOut
  | [] => (st, [])
  | c :: cs =>
    let r1 := writeDotChar st c
    let r2 := writeMarks r1.1 cs
    (r2.1, r1.2 ++ r2.2)

/-- A string ends with a given suffix: the suffix's character data is a
list-suffix of the string's character data. -/
abbrev strEndsWith (s suffix : String) : Prop :=
  suffix.data <:+ s.data

/-- The `" (code)"` suffix computed by `_formatDiagnostic` (empty when the
code is absent or falsy). -/
def codeSuffixOf : Option String → String
  | some c => if c = "" then "" else " (" ++ c ++ ")"
  | none => ""

/-- The joined primary text lines of `_formatDiagnostic`, with the code
suffix on the first line. -/
def primaryText (text : DiagnosticText) (code : Option String) : String :=
  String.intercalate "\n"
    (mapWithIndex (fun index line => line ++ (if index = 0 then codeSuffixOf code else "")) 0
      (match text with
       | .str s => [s]
       | .arr ls => ls))

/-- Unfolding of the formatter for a diagnostic with a category and no
related entries. -/
theorem formatDiagnostic_category_nil (text : DiagnosticText) (code : Option String)
    (c : String) :
    formatDiagnostic (.mk text code (some c) .nil) =
      primaryText text code ++ (if c = "" then "" else " [" ++ c ++ "]") := by
  cases text <;> cases code <;> rfl

/-- A `describe:start` event naming its scope. -/
def describeStartEvent (n : String) : Event :=
  ("describe:start", { result := some { describe := some { name := some n } } })

/-- A `test:pass` event naming its test. -/
def testPassEvent (n : String) : Event :=
  ("test:pass", { result := some { test := some { name := some n } } })

/-- The state component of a dispatch result, when it did not throw. -/
def stepResultState : Except String (DotState × List DotOut) → Option DotState
  | .ok pr => some pr.1
  | .error _ => none

/-- The mark characters of a dispatch result's output. -/
def stepResultMarks : Except String (DotState × List DotOut) → List Char
  | .ok pr => marksOf pr.2
  | .error _ => []

/-- An error-event payload carrying one diagnostic. -/
def sampleErrorPayload : Payload :=
  { diagnostics := [Diagnostic.mk (.str "bad type") none none .nil] }

/-! ## Helper lemmas -/

theorem flushDots_version (st : DotState) : (flushDots st).1.version = st.version := by
  unfold flushDots
  split <;> rfl

theorem writeDotChar_version (st : DotState) (c : Char) :
    (writeDotChar st c).1.version = st.version := by
  simp only [writeDotChar]
  split <;> rfl

theorem marksOf_append (a b : List DotOut) : marksOf (a ++ b) = marksOf a ++ marksOf b :=
  List.filterMap_append a b _

theorem marksOf_flushDots (st : DotState) : marksOf (flushDots st).2 = [] := by
  unfold flushDots
  split <;> rfl

theorem marksOf_errorLines (l : List Diagnostic) (f : Diagnostic → String) :
    marksOf (l.map fun d => DotOut.errorLine (f d)) = [] := by
  induction l with
  | nil => rfl
  | cons d ds ih => exact ih

theorem marksOf_writeDotChar (st : DotState) (c : Char) :
    marksOf (writeDotChar st c).2 = [c] := by
  simp only [writeDotChar]
  split <;> rfl

theorem dotStep_unknown (fmt : Format) (st : DotState) (k : String) (p : Payload)
    (hk : k ∉ knownEventKinds) :
    dotStep fmt st (k, p) = .error "Expected value to not exist" := by
  rw [dotStep.eq_def]
  split
  split <;>
    simp_all [knownEventKinds, errorKinds, lifecycleKinds, nonImplementedKinds]

/-- The dispatch result's state and mark output do not depend on the
rendering primitive: the mode only affects header and error strings. -/
theorem dotStep_mode_agnostic (f1 f2 : Format) (st : DotState) (ev : Event) :
    stepResultState (dotStep f1 st ev) = stepResultState (dotStep f2 st ev) ∧
    stepResultMarks (dotStep f1 st ev) = stepResultMarks (dotStep f2 st ev) := by
  obtain ⟨k, p⟩ := ev
  by_cases hk : k ∈ knownEventKinds
  · fin_cases hk <;>
      first
        | exact ⟨rfl, rfl⟩
        | (refine ⟨rfl, ?_⟩
           show marksOf (dotOnError f1 st _).2 = marksOf (dotOnError f2 st _).2
           simp [dotOnError, marksOf_append, marksOf_flushDots, marksOf_errorLines])
        | (constructor
           · show some (dotOnProjectUses f1 st _).1 = some (dotOnProjectUses f2 st _).1
             simp only [dotOnProjectUses]
             split <;> rfl
           · show marksOf (dotOnProjectUses f1 st _).2 = marksOf (dotOnProjectUses f2 st _).2
             simp only [dotOnProjectUses]
             split <;> simp [marksOf_append, marksOf_flushDots, marksOf])
  · rw [dotStep_unknown f1 st k p hk, dotStep_unknown f2 st k p hk]
    exact ⟨rfl, rfl⟩

/-- Run-level consequence of `dotStep_mode_agnostic`: the reporter state and
the mark trace of a whole run do not depend on the rendering primitive. -/
theorem dotRunFrom_mode_agnostic (f1 f2 : Format) :
    ∀ (evs : List Event) (st : DotState),
      (dotRunFrom f1 st evs).1 = (dotRunFrom f2 st evs).1 ∧
      marksOf (dotRunFrom f1 st evs).2 = marksOf (dotRunFrom f2 st evs).2 := by
  intro evs
  induction evs with
  | nil => exact fun st => ⟨rfl, rfl⟩
  | cons ev rest ih =>
    intro st
    obtain ⟨hs, hm⟩ := dotStep_mode_agnostic f1 f2 st ev
    unfold dotRunFrom
    cases e1 : dotStep f1 st ev with
    | error s =>
      cases e2 : dotStep f2 st ev with
      | error t => exact ⟨rfl, rfl⟩
      | ok pr =>
        rw [e1, e2] at hs
        simp [stepResultState] at hs
    | ok pr =>
      cases e2 : dotStep f2 st ev with
      | error t =>
        rw [e1, e2] at hs
        simp [stepResultState] at hs
      | ok pr2 =>
        obtain ⟨st1, out1⟩ := pr
        obtain ⟨st2, out2⟩ := pr2
        rw [e1, e2] at hs hm
        simp only [stepResultState, stepResultMarks, Option.some.injEq] at hs hm
        subst hs
        simp only [marksOf_append]
        exact ⟨(ih st1).1, by rw [hm, (ih st1).2]⟩

theorem oobAtLineStart_append (a b : List DotOut) (col : Nat) :
    oobAtLineStart col (a ++ b) =
      (oobAtLineStart col a && oobAtLineStart (a.foldl colStep col) b) := by
  induction a generalizing col with
  | nil => rfl
  | cons o rest ih =>
    simp only [List.cons_append, oobAtLineStart, List.foldl_cons, List.append_eq, ih,
      Bool.and_assoc]

theorem flushDots_oob (st : DotState) (col : Nat) (h : st.dotsOnCurrentLine = col) :
    oobAtLineStart col (flushDots st).2 = true := by
  subst h
  unfold flushDots
  split <;> rfl

theorem flushDots_fold (st : DotState) (col : Nat) (h : st.dotsOnCurrentLine = col) :
    (flushDots st).2.foldl colStep col = 0 := by
  subst h
  unfold flushDots
  split
  · rfl
  · simp only [List.foldl_nil]
    omega

theorem flushDots_col (st : DotState) : (flushDots st).1.dotsOnCurrentLine = 0 := by
  unfold flushDots
  split
  · rfl
  · next hc =>
    simp only []
    omega

theorem errorLines_oob_true (l : List Diagnostic) (f : Diagnostic → String) :
    oobAtLineStart 0 (l.map fun d => DotOut.errorLine (f d)) = true := by
  induction l with
  | nil => rfl
  | cons d ds ih => exact ih

theorem errorLines_fold (l : List Diagnostic) (f : Diagnostic → String) :
    (l.map fun d => DotOut.errorLine (f d)).foldl colStep 0 = 0 := by
  induction l with
  | nil => rfl
  | cons d ds ih => exact ih

theorem dotOnError_col (fmt : Format) (st : DotState) (p : Payload) :
    oobAtLineStart st.dotsOnCurrentLine (dotOnError fmt st p).2 = true ∧
    (dotOnError fmt st p).2.foldl colStep st.dotsOnCurrentLine =
      (dotOnError fmt st p).1.dotsOnCurrentLine := by
  simp only [dotOnError]
  constructor
  · rw [oobAtLineStart_append, flushDots_oob st _ rfl, flushDots_fold st _ rfl,
      errorLines_oob_true]
    rfl
  · rw [List.foldl_append, flushDots_fold st _ rfl, errorLines_fold, flushDots_col]

theorem dotOnRunEnd_col (st : DotState) :
    oobAtLineStart st.dotsOnCurrentLine (dotOnRunEnd st).2 = true ∧
    (dotOnRunEnd st).2.foldl colStep st.dotsOnCurrentLine =
      (dotOnRunEnd st).1.dotsOnCurrentLine := by
  simp only [dotOnRunEnd]
  constructor
  · rw [oobAtLineStart_append, flushDots_oob st _ rfl, flushDots_fold st _ rfl]
    rfl
  · rw [List.foldl_append, flushDots_fold st _ rfl, flushDots_col]
    rfl

theorem dotOnProjectUses_col (fmt : Format) (st : DotState) (v : String) :
    oobAtLineStart st.dotsOnCurrentLine (dotOnProjectUses fmt st v).2 = true ∧
    (dotOnProjectUses fmt st v).2.foldl colStep st.dotsOnCurrentLine =
      (dotOnProjectUses fmt st v).1.dotsOnCurrentLine := by
  simp only [dotOnProjectUses]
  split
  · set st1 : DotState :=
      { st with version := { st.version with currentCompilerVersion := some v } } with hst1
    constructor
    · rw [oobAtLineStart_append, flushDots_oob st1 st.dotsOnCurrentLine (by rw [hst1]),
        flushDots_fold st1 st.dotsOnCurrentLine (by rw [hst1])]
      rfl
    · rw [List.foldl_append, flushDots_fold st1 st.dotsOnCurrentLine (by rw [hst1])]
      simp [colStep, flushDots_col]
  · exact ⟨rfl, rfl⟩

theorem writeDotChar_col (st : DotState) (c : Char) :
    oobAtLineStart st.dotsOnCurrentLine (writeDotChar st c).2 = true ∧
    (writeDotChar st c).2.foldl colStep st.dotsOnCurrentLine =
      (writeDotChar st c).1.dotsOnCurrentLine := by
  simp only [writeDotChar]
  split
  · exact ⟨rfl, rfl⟩
  · exact ⟨rfl, rfl⟩

/-- Per-event invariant for the dot reporter: for every event other than
`run:start`, starting at the column recorded by the state, the emitted
output places every out-of-band item at column 0 and ends at the column
recorded by the new state. -/
theorem dotStep_col_invariant (fmt : Format) (st : DotState) (k : String) (p : Payload)
    (st2 : DotState) (out : List DotOut) (hk : k ≠ "run:start")
    (h : dotStep fmt st (k, p) = .ok (st2, out)) :
    oobAtLineStart st.dotsOnCurrentLine out = true ∧
    out.foldl colStep st.dotsOnCurrentLine = st2.dotsOnCurrentLine := by
  rw [dotStep.eq_def] at h
  split at h
  split at h <;>
    first
      | (simp_all
         done)
      | (simp only [Except.ok.injEq, Prod.ext_iff] at h
         obtain ⟨h1, h2⟩ := h
         subst h1
         subst h2
         first
           | exact ⟨rfl, rfl⟩
           | exact dotOnError_col fmt st _
           | exact dotOnProjectUses_col fmt st _
           | exact writeDotChar_col st _
           | exact dotOnRunEnd_col st)

/-- Run-level invariant: a dot-reporter run containing no `run:start`
events keeps every out-of-band item at column 0, starting from the column
recorded by the state. -/
theorem dotRunFrom_oob (fmt : Format) :
    ∀ (evs : List Event) (st : DotState), (∀ e ∈ evs, e.1 ≠ "run:start") →
      oobAtLineStart st.dotsOnCurrentLine (dotRunFrom fmt st evs).2 = true := by
  intro evs
  induction evs with
  | nil => exact fun st _ => rfl
  | cons ev rest ih =>
    intro st hall
    obtain ⟨k, p⟩ := ev
    unfold dotRunFrom
    cases hstep : dotStep fmt st (k, p) with
    | error s => rfl
    | ok pr =>
      obtain ⟨st2, out⟩ := pr
      obtain ⟨ho, hc⟩ := dotStep_col_invariant fmt st k p st2 out
        (hall (k, p) (List.mem_cons_self _ _)) hstep
      simp only [oobAtLineStart_append, ho, hc, Bool.true_and]
      exact ih st2 fun e he => hall e (List.mem_cons_of_mem _ he)

/-! ## Theorems -/

/-- Claim C6: formatting `{text: "bad type", code: "E1"}` yields
`"bad type (E1)"`, and the same diagnostic extended with one related entry
`{text: "context"}` yields `"bad type (E1)\n  context"`: the code suffix is
on the first line only and the related entry is recursively formatted,
indented by two spaces, on the following line. -/
theorem C6_formatDiagnostic_reference_equalities :
    formatDiagnostic (.mk (.str "bad type") (some "E1") none .nil) = "bad type (E1)" ∧
    formatDiagnostic (.mk (.str "bad type") (some "E1") none
        (.cons (.mk (.str "context") none none .nil) .nil)) =
      "bad type (E1)\n  context" := by
  exact ⟨rfl, rfl⟩

/-- Claim C8: flushing the dot buffer at column count 0 is a no-op (no
blank line is emitted and the count stays 0); at a positive count it
terminates the line and resets the count to 0. -/
theorem C8_flushDots_noop_at_zero :
    (∀ st : DotState, st.dotsOnCurrentLine = 0 → flushDots st = (st, [])) ∧
    (∀ st : DotState, st.dotsOnCurrentLine > 0 →
      flushDots st = ({ st with dotsOnCurrentLine := 0 }, [DotOut.newline])) := by
  constructor
  · intro st h
    simp only [flushDots]
    rw [if_neg (by omega)]
  · intro st h
    simp only [flushDots]
    rw [if_pos h]

/-- Witness for C8 at concrete states: the initial state has count 0 and
flushing it changes nothing; after one mark the count is positive and
flushing terminates the line. -/
theorem C8_flushDots_noop_at_zero_witness :
    (initialDotState.dotsOnCurrentLine = 0 ∧
      flushDots initialDotState = (initialDotState, [])) ∧
    ((writeDotChar initialDotState '.').1.dotsOnCurrentLine > 0 ∧
      flushDots (writeDotChar initialDotState '.').1 =
        ({ (writeDotChar initialDotState '.').1 with dotsOnCurrentLine := 0 },
         [DotOut.newline])) :=
  ⟨⟨rfl, C8_flushDots_noop_at_zero.1 initialDotState rfl⟩,
   ⟨by decide, C8_flushDots_noop_at_zero.2 (writeDotChar initialDotState '.').1 (by decide)⟩⟩

/-- Claim C3: each write emits its mark with no terminator and increments
the column count, terminating the line and resetting the count exactly when
the count reaches 80; consequently 80 marks written from count 0 emit one
line of 80 mark characters terminated by a line break with the count back at
0, and an 81st mark begins a fresh line. -/
theorem C3_writeDotChar_wraps_at_80 :
    (∀ (st : DotState) (c : Char), st.dotsOnCurrentLine + 1 < 80 →
      writeDotChar st c =
        ({ st with dotsOnCurrentLine := st.dotsOnCurrentLine + 1 }, [DotOut.mark c])) ∧
    (∀ (st : DotState) (c : Char), st.dotsOnCurrentLine = 79 →
      writeDotChar st c =
        ({ st with dotsOnCurrentLine := 0 }, [DotOut.mark c, DotOut.newline])) ∧
    renderTrace (writeMarks initialDotState (List.replicate 80 '.')).2 =
      String.mk (List.replicate 80 '.') ++ "\n" ∧
    (writeMarks initialDotState (List.replicate 80 '.')).1.dotsOnCurrentLine = 0 ∧
    renderTrace (writeMarks initialDotState (List.replicate 81 '.')).2 =
      String.mk (List.replicate 80 '.') ++ "\n" ++ "." ∧
    (writeMarks initialDotState (List.replicate 81 '.')).1.dotsOnCurrentLine = 1 := by
  refine ⟨?_, ?_, by decide, by decide, by decide, by decide⟩
  · intro st c h
    simp only [writeDotChar]
    rw [if_neg (by omega)]
  · intro st c h
    simp only [writeDotChar]
    rw [if_pos (by omega)]

/-- Witness for C3 at concrete states: a write at count 0 emits just the
mark, a write at count 79 wraps. -/
theorem C3_writeDotChar_wraps_at_80_witness :
    (initialDotState.dotsOnCurrentLine + 1 < 80 ∧
      writeDotChar initialDotState '.' =
        ({ initialDotState with dotsOnCurrentLine := 1 }, [DotOut.mark '.'])) ∧
    ((writeMarks initialDotState (List.replicate 79 '.')).1.dotsOnCurrentLine = 79 ∧
      writeDotChar (writeMarks initialDotState (List.replicate 79 '.')).1 '.' =
        ({ (writeMarks initialDotState (List.replicate 79 '.')).1 with dotsOnCurrentLine := 0 },
         [DotOut.mark '.', DotOut.newline])) :=
  ⟨⟨by decide, C3_writeDotChar_wraps_at_80.1 initialDotState '.' (by decide)⟩,
   ⟨by decide, C3_writeDotChar_wraps_at_80.2.1 _ '.' (by decide)⟩⟩

/-- Claim C1: on a `project:uses` event the compiler version header is
printed iff the event's version differs from the last-shown version (which
is absent after `run:start`), and both version fields then hold the current
version; consequently the version sequence V1, V1, V2, V2, V1 prints exactly
three headers, in the order V1, V2, V1. -/
theorem C1_version_header_dedup (V1 V2 : String) (h : V1 ≠ V2) :
    (∀ (fmt : Format) (st : VersionState) (v : String),
      (some v ≠ st.lastShownCompilerVersion →
        (baseProjectUses fmt st v).2 = [compilerVersionHeader fmt (some v)]) ∧
      (some v = st.lastShownCompilerVersion → (baseProjectUses fmt st v).2 = []) ∧
      (baseProjectUses fmt st v).1.lastShownCompilerVersion = some v ∧
      (baseProjectUses fmt st v).1.currentCompilerVersion = some v) ∧
    (∀ st : VersionState, (baseRunStart st).currentCompilerVersion = none ∧
      (baseRunStart st).lastShownCompilerVersion = none) ∧
    (∀ (fmt : Format) (st : VersionState),
      (runProjectUses fmt (baseRunStart st) [V1, V1, V2, V2, V1]).2 =
        [compilerVersionHeader fmt (some V1), compilerVersionHeader fmt (some V2),
         compilerVersionHeader fmt (some V1)]) := by
  refine ⟨?_, fun st => ⟨rfl, rfl⟩, ?_⟩
  · intro fmt st v
    by_cases hd : (some v : Option String) = st.lastShownCompilerVersion
    · exact ⟨fun hne => absurd hd hne,
        fun _ => by simp [baseProjectUses, hd.symm],
        by simp [baseProjectUses, hd.symm],
        by simp [baseProjectUses, hd.symm]⟩
    · exact ⟨fun _ => by simp [baseProjectUses, hd],
        fun he => absurd he hd,
        by simp [baseProjectUses, hd],
        by simp [baseProjectUses, hd]⟩
  · intro fmt st
    simp [runProjectUses, baseProjectUses, baseRunStart, h, Ne.symm h]

/-- Witness for C1 at the concrete versions 5.4 and 5.8. -/
theorem C1_version_header_dedup_witness :
    ("5.4" : String) ≠ "5.8" ∧
    (runProjectUses (Format.ofMode false) (baseRunStart ⟨none, none⟩)
        ["5.4", "5.4", "5.8", "5.8", "5.4"]).2 =
      [compilerVersionHeader (Format.ofMode false) (some "5.4"),
       compilerVersionHeader (Format.ofMode false) (some "5.8"),
       compilerVersionHeader (Format.ofMode false) (some "5.4")] :=
  ⟨by decide,
   (C1_version_header_dedup "5.4" "5.8" (by decide)).2.2 (Format.ofMode false) ⟨none, none⟩⟩

/-- Claim C2: for either concrete renderer, dispatching an event returns
normally iff its kind belongs to the closed enumeration of known kinds
(error kinds, lifecycle kinds, not-yet-implemented kinds); a kind outside
the enumeration throws via `assertTypeIsNever`. -/
theorem C2_dispatch_exhaustive :
    (∀ (fmt : Format) (st : DotState) (k : String) (p : Payload),
      (dotStep fmt st (k, p)).isOk = true ↔ k ∈ knownEventKinds) ∧
    (∀ (fmt : Format) (st : MochaState) (k : String) (p : Payload),
      (mochaStep fmt st (k, p)).isOk = true ↔ k ∈ knownEventKinds) := by
  constructor
  · intro fmt st k p
    constructor
    · intro hok
      rw [dotStep.eq_def] at hok
      split at hok
      split at hok <;>
        simp_all [knownEventKinds, errorKinds, lifecycleKinds, nonImplementedKinds,
          Except.isOk, Except.toBool]
    · intro hk
      fin_cases hk <;> rfl
  · intro fmt st k p
    constructor
    · intro hok
      rw [mochaStep.eq_def] at hok
      split at hok
      split at hok <;>
        simp_all [knownEventKinds, errorKinds, lifecycleKinds, nonImplementedKinds,
          Except.isOk, Except.toBool]
    · intro hk
      fin_cases hk <;> rfl

/-- Claim C4: the indentation level passed when printing a `test:pass` or
`test:fail` line always equals the current describe-stack depth; after
`describe:start` for scopes A, B, C a test is printed with indentation 3,
and after popping C a subsequent test is printed with indentation 2. -/
theorem C4_test_indent_equals_stack_depth :
    (∀ (fmt : Format) (st : MochaState) (p : Payload),
      mochaStep fmt st ("test:pass", p) =
        .ok (st, [MochaOut.testLine
          (printTest fmt (testNameOf p) true st.currentDescribeStack.length)
          st.currentDescribeStack.length]) ∧
      mochaStep fmt st ("test:fail", p) =
        .ok (st, [MochaOut.testLine
          (printTest fmt (testNameOf p) false st.currentDescribeStack.length)
          st.currentDescribeStack.length])) ∧
    (∀ fmt : Format,
      testIndents (mochaRun fmt [("run:start", {}), describeStartEvent "A",
        describeStartEvent "B", describeStartEvent "C", testPassEvent "x",
        ("describe:end", {}), testPassEvent "y"]).2 = [3, 2]) :=
  ⟨fun _ _ _ => ⟨rfl, rfl⟩, fun _ => rfl⟩

/-- Claim C9: `run:start` resets both compiler-version fields to absent (in
both concrete renderers), and dispatching any other known event kind except
`project:uses` leaves both fields unchanged. -/
theorem C9_version_fields_frame :
    (∀ (fmt : Format) (st : DotState) (p : Payload),
      dotStep fmt st ("run:start", p) =
        .ok ({ version := { currentCompilerVersion := none, lastShownCompilerVersion := none },
               dotsOnCurrentLine := 0 }, [])) ∧
    (∀ (fmt : Format) (st : MochaState) (p : Payload),
      mochaStep fmt st ("run:start", p) =
        .ok ({ version := { currentCompilerVersion := none, lastShownCompilerVersion := none },
               currentDescribeStack := [] }, [])) ∧
    (∀ (fmt : Format) (st : DotState) (k : String) (p : Payload)
        (st2 : DotState) (out : List DotOut),
      k ∈ knownEventKinds → k ≠ "project:uses" → k ≠ "run:start" →
      dotStep fmt st (k, p) = .ok (st2, out) → st2.version = st.version) ∧
    (∀ (fmt : Format) (st : MochaState) (k : String) (p : Payload)
        (st2 : MochaState) (out : List MochaOut),
      k ∈ knownEventKinds → k ≠ "project:uses" → k ≠ "run:start" →
      mochaStep fmt st (k, p) = .ok (st2, out) → st2.version = st.version) := by
  refine ⟨fun _ _ _ => rfl, fun _ _ _ => rfl, ?_, ?_⟩
  · intro fmt st k p st2 out hk hpu hrs h
    rw [dotStep.eq_def] at h
    split at h
    split at h <;>
      simp_all [dotOnError, dotOnRunEnd, Prod.ext_iff] <;>
      (obtain ⟨h1, h2⟩ := h
       rw [← h1]
       try rw [flushDots_version]
       try rw [writeDotChar_version])
  · intro fmt st k p st2 out hk hpu hrs h
    rw [mochaStep.eq_def] at h
    split at h
    split at h <;>
      simp_all [mochaOnDescribeStart, mochaOnDescribeEnd, Prod.ext_iff] <;>
      (obtain ⟨h1, h2⟩ := h
       rw [← h1])

/-- Witness for C9 at a concrete known kind (`test:pass`) on the dot
reporter. -/
theorem C9_version_fields_frame_witness :
    ("test:pass" ∈ knownEventKinds ∧ "test:pass" ≠ "project:uses" ∧
      "test:pass" ≠ "run:start" ∧
      dotStep (Format.ofMode false) initialDotState ("test:pass", {}) =
        .ok (writeDotChar initialDotState '.') ∧
      (writeDotChar initialDotState '.').1.version = initialDotState.version) :=
  ⟨by decide, by decide, by decide, rfl,
   C9_version_fields_frame.2.2.1 (Format.ofMode false) initialDotState "test:pass" {}
     (writeDotChar initialDotState '.').1 (writeDotChar initialDotState '.').2
     (by decide) (by decide) (by decide) rfl⟩

/-- Claim C10: the compact renderer writes the literal character `.` for
every `test:pass` and `F` for every `test:fail`, and the mark output of a
run is identical in markdown mode and in CLI mode. -/
theorem C10_dot_marks_mode_independent :
    (∀ (fmt : Format) (st : DotState) (p : Payload) (st2 : DotState) (out : List DotOut),
      dotStep fmt st ("test:pass", p) = .ok (st2, out) → marksOf out = ['.']) ∧
    (∀ (fmt : Format) (st : DotState) (p : Payload) (st2 : DotState) (out : List DotOut),
      dotStep fmt st ("test:fail", p) = .ok (st2, out) → marksOf out = ['F']) ∧
    (∀ evs : List Event,
      marksOf (dotRun (Format.ofMode true) evs).2 =
        marksOf (dotRun (Format.ofMode false) evs).2) := by
  refine ⟨?_, ?_, ?_⟩
  · intro fmt st p st2 out h
    have h3 : writeDotChar st '.' = (st2, out) := Except.ok.inj h
    simp only [Prod.ext_iff] at h3
    rw [← h3.2, marksOf_writeDotChar]
  · intro fmt st p st2 out h
    have h3 : writeDotChar st 'F' = (st2, out) := Except.ok.inj h
    simp only [Prod.ext_iff] at h3
    rw [← h3.2, marksOf_writeDotChar]
  · intro evs
    exact (dotRunFrom_mode_agnostic (Format.ofMode true) (Format.ofMode false) evs
      initialDotState).2

/-- Witness for C10 at a concrete dispatch. -/
theorem C10_dot_marks_mode_independent_witness :
    dotStep (Format.ofMode false) initialDotState ("test:pass", {}) =
      .ok (writeDotChar initialDotState '.') ∧
    marksOf (writeDotChar initialDotState '.').2 = ['.'] :=
  ⟨rfl, C10_dot_marks_mode_independent.1 (Format.ofMode false) initialDotState {}
     (writeDotChar initialDotState '.').1 (writeDotChar initialDotState '.').2 rfl⟩

/-- Counterexample to claim C5 as stated: the claim quantifies over every
sequence of dispatched events, but `run:start` resets the dot column count
without terminating a pending line, so after `test:pass, run:start,
store:error` the error line is emitted at on-screen column 1, mid-line with
a dot character. -/
theorem C5_counterexample :
    oobAtLineStart 0 (dotRun (Format.ofMode false)
      [("test:pass", {}), ("run:start", {}), ("store:error", sampleErrorPayload)]).2 = false := by
  rfl

/-- Claim C5 as amended: within a single run — an event sequence starting
with `run:start` and containing no further `run:start` — every out-of-band
item (compiler version header or error line) of the compact renderer's trace
is emitted at column 0: any pending partial dot line has been terminated
first. -/
theorem C5_oob_output_at_line_start (fmt : Format) (st : DotState) (p : Payload)
    (evs : List Event) (h : ∀ e ∈ evs, e.1 ≠ "run:start") :
    oobAtLineStart 0 (dotRunFrom fmt st (("run:start", p) :: evs)).2 = true := by
  show oobAtLineStart 0 ([] ++ (dotRunFrom fmt (dotOnRunStart st) evs).2) = true
  rw [List.nil_append]
  exact dotRunFrom_oob fmt evs (dotOnRunStart st) h

/-- Witness for the amended C5 on a concrete single-run event sequence
containing dots, an error block and a version header. -/
theorem C5_oob_output_at_line_start_witness :
    (∀ e ∈ [(("test:pass" : String), ({} : Payload)), ("store:error", sampleErrorPayload),
        ("project:uses", { compilerVersion := "5.4" })], e.1 ≠ "run:start") ∧
    oobAtLineStart 0 (dotRunFrom (Format.ofMode false) initialDotState
      (("run:start", ({} : Payload)) ::
        [("test:pass", {}), ("store:error", sampleErrorPayload),
         ("project:uses", { compilerVersion := "5.4" })])).2 = true :=
  ⟨by decide,
   C5_oob_output_at_line_start (Format.ofMode false) initialDotState {}
     [("test:pass", {}), ("store:error", sampleErrorPayload),
      ("project:uses", { compilerVersion := "5.4" })] (by decide)⟩

/-- Counterexample to claim C7 as stated: for a diagnostic with a category
and a non-empty related list, the category suffix is not at the very end of
the formatted output (the related lines follow it); and for a present but
empty category string no suffix is appended at all. -/
theorem C7_counterexample :
    ¬ strEndsWith
        (formatDiagnostic (.mk (.str "bad type") none (some "Error")
          (.cons (.mk (.str "context") none none .nil) .nil)))
        " [Error]" ∧
    ¬ strEndsWith (formatDiagnostic (.mk (.str "bad type") none (some "") .nil)) " []" := by
  constructor
  · intro h
    exact absurd h (by decide)
  · intro h
    exact absurd h (by decide)

/-- Claim C7 as amended: for every diagnostic whose category is present and
non-empty and whose related list is empty, the formatted output ends with
the category suffix; with a non-empty related list the suffix instead ends
the primary text, before the related lines. -/
theorem C7_category_suffix_ends_output (d : Diagnostic) (c : String)
    (hc : d.category = some c) (hne : c ≠ "")
    (hrel : d.related = DiagnosticList.nil) :
    strEndsWith (formatDiagnostic d) (" [" ++ c ++ "]") := by
  obtain ⟨text, code, category, related⟩ := d
  simp only [Diagnostic.category] at hc
  simp only [Diagnostic.related] at hrel
  subst hc hrel
  show (" [" ++ c ++ "]").data <:+ _
  rw [formatDiagnostic_category_nil, if_neg hne, String.data_append]
  exact List.suffix_append _ _

/-- Witness for the amended C7 at a concrete diagnostic. -/
theorem C7_category_suffix_ends_output_witness :
    (Diagnostic.mk (.str "bad type") none (some "Error") .nil).category = some "Error" ∧
    "Error" ≠ "" ∧
    (Diagnostic.mk (.str "bad type") none (some "Error") .nil).related = DiagnosticList.nil ∧
    strEndsWith (formatDiagnostic (.mk (.str "bad type") none (some "Error") .nil))
      (" [" ++ "Error" ++ "]") :=
  ⟨rfl, by decide, rfl,
   C7_category_suffix_ends_output (.mk (.str "bad type") none (some "Error") .nil)
     "Error" rfl (by decide) rfl⟩
